import Mathlib

/-!
Verification of `src/json-schema/test-collapse.py`, the checker for the
collapseTransparent schema-simplification pass.

The script is embedded shallowly: parsed JSON values become the inductive
`Json`; Python dicts become association lists (`List (String × Json)`) whose
keys are unique after a JSON parse; Python sets of strings become
`Finset String`; printing becomes a list of structured `OutLine` values
(the report text itself is declared "not a stable contract" and is not
modelled character by character); `sys.exit` becomes an explicit exit code.
Fallible evaluation (an uncaught Python exception) is modelled with
`Option` / a dedicated crash constructor.
-/

namespace Collapse

/-- A parsed JSON value, as produced by `json.load`.  Numbers are modelled as
integers (the documents consumed by the script use integer annotations only;
fractional numbers play no role in any check). -/
inductive Json : Type where
  | null : Json
  | bool : Bool → Json
  | num : Int → Json
  | str : String → Json
  | arr : List Json → Json
  | obj : List (String × Json) → Json

mutual

/-- Decidable equality for `Json` (the `deriving` handler does not support
nested inductives, so the instance is spelled out). -/
def jsonDecEq : (a b : Json) → Decidable (a = b)
  | .null, .null => .isTrue rfl
  | .bool x, .bool y =>
      if h : x = y then .isTrue (by rw [h]) else .isFalse (by intro hh; injection hh; contradiction)
  | .num x, .num y =>
      if h : x = y then .isTrue (by rw [h]) else .isFalse (by intro hh; injection hh; contradiction)
  | .str x, .str y =>
      if h : x = y then .isTrue (by rw [h]) else .isFalse (by intro hh; injection hh; contradiction)
  | .arr xs, .arr ys =>
      match jsonListDecEq xs ys with
      | .isTrue h => .isTrue (by rw [h])
      | .isFalse h => .isFalse (by intro hh; injection hh; contradiction)
  | .obj xs, .obj ys =>
      match jsonObjDecEq xs ys with
      | .isTrue h => .isTrue (by rw [h])
      | .isFalse h => .isFalse (by intro hh; injection hh; contradiction)
  | .null, .bool _ | .null, .num _ | .null, .str _ | .null, .arr _ | .null, .obj _
  | .bool _, .null | .bool _, .num _ | .bool _, .str _ | .bool _, .arr _ | .bool _, .obj _
  | .num _, .null | .num _, .bool _ | .num _, .str _ | .num _, .arr _ | .num _, .obj _
  | .str _, .null | .str _, .bool _ | .str _, .num _ | .str _, .arr _ | .str _, .obj _
  | .arr _, .null | .arr _, .bool _ | .arr _, .num _ | .arr _, .str _ | .arr _, .obj _
  | .obj _, .null | .obj _, .bool _ | .obj _, .num _ | .obj _, .str _ | .obj _, .arr _ =>
      .isFalse (fun h => Json.noConfusion h)

/-- Decidable equality for lists of `Json`. -/
def jsonListDecEq : (a b : List Json) → Decidable (a = b)
  | [], [] => .isTrue rfl
  | [], _ :: _ => .isFalse (fun h => List.noConfusion h)
  | _ :: _, [] => .isFalse (fun h => List.noConfusion h)
  | x :: xs, y :: ys =>
      match jsonDecEq x y, jsonListDecEq xs ys with
      | .isTrue h1, .isTrue h2 => .isTrue (by rw [h1, h2])
      | .isFalse h1, _ => .isFalse (by intro hh; injection hh; contradiction)
      | _, .isFalse h2 => .isFalse (by intro hh; injection hh; contradiction)

/-- Decidable equality for association lists of `Json`. -/
def jsonObjDecEq : (a b : List (String × Json)) → Decidable (a = b)
  | [], [] => .isTrue rfl
  | [], _ :: _ => .isFalse (fun h => List.noConfusion h)
  | _ :: _, [] => .isFalse (fun h => List.noConfusion h)
  | (k1, v1) :: xs, (k2, v2) :: ys =>
      if hk : k1 = k2 then
        match jsonDecEq v1 v2, jsonObjDecEq xs ys with
        | .isTrue h1, .isTrue h2 => .isTrue (by rw [hk, h1, h2])
        | .isFalse h1, _ =>
            .isFalse (by intro hh; injection hh with hh1 hh2; injection hh1; contradiction)
        | _, .isFalse h2 => .isFalse (by intro hh; injection hh; contradiction)
      else
        .isFalse (by intro hh; injection hh with hh1 hh2; injection hh1; contradiction)

end

instance : DecidableEq Json := jsonDecEq

/-- The recognized local-definitions pointer head, `"#/definitions/"`. -/
def refHead : String := "#/definitions/"

/-- Embeds `isinstance(val, str) and val.startswith("#/definitions/")`
together with the slice `val[len("#/definitions/"):]`: returns the captured
target name when the value is a matching reference string, `none` otherwise.
Python strings are sequences of code points, matching `String.data`. -/
def refTarget : Json → Option String
  | .str s =>
      if refHead.data.isPrefixOf s.data then
        some (String.mk (s.data.drop refHead.data.length))
      else
        none
  | _ => none

mutual

/-- Embeds `collect_refs` (src/json-schema/test-collapse.py:21-34): walk a
JSON value and collect all `$ref` targets into a set. -/
def collect_refs : Json → Finset String
  | .null => ∅
  | .bool _ => ∅
  | .num _ => ∅
  | .str _ => ∅
  | .arr items => collectArr items
  | .obj entries => collectObj entries

/-- The `elif isinstance(obj, list): for item in obj` arm of `collect_refs`. -/
def collectArr : List Json → Finset String
  | [] => ∅
  | j :: rest => collect_refs j ∪ collectArr rest

/-- The `if isinstance(obj, dict): for key, val in obj.items()` arm of
`collect_refs`: a matching `$ref` entry contributes its target, every other
entry is recursed into. -/
def collectObj : List (String × Json) → Finset String
  | [] => ∅
  | (k, v) :: rest =>
      (if k = "$ref" then
        match refTarget v with
        | some t => {t}
        | none => collect_refs v
      else collect_refs v) ∪ collectObj rest

end

/-- Embeds a Python dict lookup `d[k]` / `k in d` on an association list as
produced by a JSON parse (keys unique, insertion order preserved). -/
def lookupKey (key : String) : List (String × Json) → Option Json
  | [] => none
  | (k, v) :: rest => if key = k then some v else lookupKey key rest

/-- Embeds `doc.get(key, default)` on a parsed JSON object. -/
def dictGetD (top : List (String × Json)) (key : String) (dflt : Json) : Json :=
  (lookupKey key top).getD dflt

/-- The accumulated error messages (`errors.append(...)` at
src/json-schema/test-collapse.py:62,86,97,106).  Each Python format string
becomes a constructor carrying the interpolated data, so distinct structural
problems yield distinct messages. -/
inductive ErrMsg where
  | defCountIncreased (amount : Int)
  | brokenRef (name : String)
  | orphanedTarget (name : String)
  | collapsedMismatch (annot : Json) (actual : Nat)
deriving DecidableEq

/-- One printed report line.  The report text is not a stable contract, so a
line is modelled as a constructor carrying the data that the corresponding
`print` interpolates (`os.path.basename` and the joined absorbed-name text
are pure formatting and keep their raw arguments). -/
inductive OutLine where
  | usage
  | header (path : String)
  | defCountBoth (beforeCount afterCount : Nat) (removed : Int)
  | defCountAfterOnly (afterCount : Nat)
  | collapsedHeader (count : Nat)
  | collapsedEntry (name : String) (absorbed : Json)
  | brokenHeader (count : Nat)
  | brokenLine (name : String)
  | orphanHeader (count : Nat)
  | orphanLine (name : String)
  | orphanSkipped
  | collapsedCount (annot : Json) (actual : Nat)
  | sepLine
  | passLine
  | failLine (errorCount : Nat)
  | errLine (e : ErrMsg)
deriving DecidableEq

/-- Embeds the Python comparison `collapsed_annotation != actual_collapsed`
(negated): a JSON value loaded by `json.load` equals a Python `int` exactly
when it is that number, or the boolean `True`/`False` with that numeric
value (Python `bool` is a subtype of `int`). -/
def pyEqInt : Json → Int → Bool
  | .num m, n => m = n
  | .bool b, n => (if b then (1 : Int) else 0) = n
  | _, _ => false

/-- Extracts the `definitions` mapping of a document:
`doc.get("definitions", {})` followed by uses that require a dict
(`len`, `.items()`, `.keys()`).  `none` models the uncaught `TypeError` /
`AttributeError` the script raises when the document or its `definitions`
value is not an object. -/
def defsOfDoc : Json → Option (List (String × Json))
  | .obj top =>
      match dictGetD top "definitions" (.obj []) with
      | .obj d => some d
      | _ => none
  | _ => none

/-- Check 1 (src/json-schema/test-collapse.py:54-64), both-documents case:
`removed = before_count - after_count`; an error exactly when `removed < 0`. -/
def check1 (before_defs after_defs : List (String × Json)) : List OutLine × List ErrMsg :=
  let removed : Int := (before_defs.length : Int) - (after_defs.length : Int)
  ([.defCountBoth before_defs.length after_defs.length removed],
   if removed < 0 then [.defCountIncreased (-removed)] else [])

/-- Check 2 (src/json-schema/test-collapse.py:67-70): the `reduced_defs`
dict, keyed by definition name, holding each `x-netex-reduced` value found
in a dict-valued definition entry. -/
def reduced_defs (defs : List (String × Json)) : List (String × Json) :=
  defs.filterMap fun kv =>
    match kv.2 with
    | .obj e =>
        match lookupKey "x-netex-reduced" e with
        | some t => some (kv.1, t)
        | none => none
    | _ => none

/-- Check 2 report lines (src/json-schema/test-collapse.py:72-74):
`sorted(reduced_defs.items())`, printed one line per collapsed name. -/
def check2Lines (defs : List (String × Json)) : List OutLine :=
  .collapsedHeader (reduced_defs defs).length ::
    ((reduced_defs defs).mergeSort (fun a b => decide (a.1 ≤ b.1))).map
      fun kv => .collapsedEntry kv.1 kv.2

/-- Check 3 accumulator (src/json-schema/test-collapse.py:77-79): the union
of `collect_refs` over every definition entry of the after document. -/
def all_refs (defs : List (String × Json)) : Finset String :=
  defs.foldl (fun acc kv => acc ∪ collect_refs kv.2) ∅

/-- The set of keys of a definitions mapping, `set(defs.keys())`. -/
def defKeys (defs : List (String × Json)) : Finset String :=
  (defs.map Prod.fst).toFinset

/-- Check 3 (src/json-schema/test-collapse.py:81): `broken = all_refs -
set(after_defs.keys())`. -/
def broken (defs : List (String × Json)) : Finset String :=
  all_refs defs \ defKeys defs

/-- Check 3 report lines and errors (src/json-schema/test-collapse.py:82-86):
one `BROKEN` line and one error per broken name, in sorted order. -/
def check3 (defs : List (String × Json)) : List OutLine × List ErrMsg :=
  (.brokenHeader (broken defs).card ::
     ((broken defs).sort (· ≤ ·)).map OutLine.brokenLine,
   ((broken defs).sort (· ≤ ·)).map ErrMsg.brokenRef)

/-- Check 4 sets (src/json-schema/test-collapse.py:90-92): names removed
between before and after that are still referenced. -/
def orphaned (before_defs after_defs : List (String × Json)) : Finset String :=
  (defKeys before_defs \ defKeys after_defs) ∩ all_refs after_defs

/-- Check 4 report lines and errors (src/json-schema/test-collapse.py:93-97):
one `ORPHANED` line and one error per orphaned name, in sorted order. -/
def check4 (before_defs after_defs : List (String × Json)) : List OutLine × List ErrMsg :=
  (.orphanHeader (orphaned before_defs after_defs).card ::
     ((orphaned before_defs after_defs).sort (· ≤ ·)).map OutLine.orphanLine,
   ((orphaned before_defs after_defs).sort (· ≤ ·)).map ErrMsg.orphanedTarget)

/-- The top-level collapse-count annotation with its absent-means-zero
default: `after.get("x-netex-collapsed", 0)`
(src/json-schema/test-collapse.py:102). -/
def collapsedAnnot (top : List (String × Json)) : Json :=
  dictGetD top "x-netex-collapsed" (.num 0)

/-- Check 5 (src/json-schema/test-collapse.py:101-108): the annotation is
compared with `len(reduced_defs)`; a single mismatch error when unequal. -/
def check5 (annot : Json) (actual : Nat) : List OutLine × List ErrMsg :=
  ([.collapsedCount annot actual],
   if pyEqInt annot actual then [] else [.collapsedMismatch annot actual])

/-- The full run outcome: every report line printed to standard output, the
accumulated error list, and the process exit status. -/
structure RunOutcome where
  lines : List OutLine
  errors : List ErrMsg
  exitCode : Nat
deriving DecidableEq

/-- Embeds `main` after a successful load of the after document
(src/json-schema/test-collapse.py:48-118): runs checks 1-5 in order,
accumulates errors, and exits 1 exactly when the error list is non-empty.
`none` models an uncaught exception from a document that is not the JSON
object shape the script destructures (non-object document or non-object
`definitions` value). -/
def runMain (afterPath : String) (after : Json) (beforeDoc : Option Json) :
    Option RunOutcome :=
  match after with
  | .obj afterTop =>
    match defsOfDoc (.obj afterTop) with
    | none => none
    | some after_defs =>
      let c1 : Option (List OutLine × List ErrMsg × Option (List (String × Json))) :=
        match beforeDoc with
        | none => some ([.defCountAfterOnly after_defs.length], [], none)
        | some b =>
          match defsOfDoc b with
          | none => none
          | some before_defs =>
              some ((check1 before_defs after_defs).1, (check1 before_defs after_defs).2,
                some before_defs)
      match c1 with
      | none => none
      | some (c1lines, c1errs, beforeDefs) =>
        let c2lines := check2Lines after_defs
        let c3 := check3 after_defs
        let c4 : List OutLine × List ErrMsg :=
          match beforeDefs with
          | some before_defs => check4 before_defs after_defs
          | none => ([.orphanSkipped], [])
        let c5 := check5 (collapsedAnnot afterTop) (reduced_defs after_defs).length
        let errors := c1errs ++ c3.2 ++ c4.2 ++ c5.2
        let summary :=
          if errors.isEmpty then [OutLine.sepLine, OutLine.passLine]
          else OutLine.sepLine :: OutLine.failLine errors.length :: errors.map OutLine.errLine
        some ⟨OutLine.header afterPath :: c1lines ++ c2lines ++ c3.1 ++ c4.1 ++ c5.1 ++ summary,
          errors, if errors.isEmpty then 0 else 1⟩
  | _ => none

/-- The observable result of one process invocation.  `usage` is the
missing-argument path (usage line on standard output, exit 1); `loadCrash`
is an uncaught exception while opening or parsing the after document
(nothing on standard output, non-zero exit); `midCrash` is an uncaught
exception after the report started (before-document load failure or a
non-object shape), leaving a truncated report and a non-zero exit. -/
inductive ProgResult where
  | usage
  | loadCrash
  | midCrash
  | finished (out : RunOutcome)
deriving DecidableEq

/-- Embeds the whole script entry point (src/json-schema/test-collapse.py:
37-118).  `args` is `sys.argv[1:]`; `fs` maps a path to the parsed JSON
document, `none` when the file is unreadable or not valid JSON. -/
def progMain (args : List String) (fs : String → Option Json) : ProgResult :=
  match args with
  | [] => .usage
  | afterPath :: rest =>
    match fs afterPath with
    | none => .loadCrash
    | some after =>
      match rest with
      | [] =>
        match runMain afterPath after none with
        | some out => .finished out
        | none => .midCrash
      | beforePath :: _ =>
        match fs beforePath with
        | none => .midCrash
        | some b =>
          match runMain afterPath after (some b) with
          | some out => .finished out
          | none => .midCrash

/-- The exit status of a process invocation (an uncaught Python exception
terminates the interpreter with status 1). -/
def ProgResult.exitCode : ProgResult → Nat
  | .usage => 1
  | .loadCrash => 1
  | .midCrash => 1
  | .finished out => out.exitCode

/-- The lines printed to standard output, when the run did not crash midway
(a `midCrash` leaves a truncated report that is not modelled line by line). -/
def ProgResult.stdoutLines : ProgResult → Option (List OutLine)
  | .usage => some [.usage]
  | .loadCrash => some []
  | .midCrash => none
  | .finished out => some out.lines

/-! ### Spec-side vocabulary

`Reach j t` says that `t` occurs in the transitive structure of `j`: `j`
itself, an element of an array, or the value of an object entry, repeated.
This is the spec's "anywhere in the value's transitive structure". -/

/-- Transitive substructure of a JSON value. -/
inductive Reach : Json → Json → Prop where
  | refl (j : Json) : Reach j j
  | inArr {items : List Json} {j t : Json} :
      j ∈ items → Reach j t → Reach (.arr items) t
  | inObj {es : List (String × Json)} {k : String} {v t : Json} :
      (k, v) ∈ es → Reach v t → Reach (.obj es) t

/-- The contribution of one object entry to the collector: the loop body of
`collect_refs` over `obj.items()`. -/
def entryRefs (k : String) (v : Json) : Finset String :=
  if k = "$ref" then
    match refTarget v with
    | some t => {t}
    | none => collect_refs v
  else collect_refs v

/-- Structural induction over `Json` with membership hypotheses for the two
container constructors (the auto-generated recursor of the nested inductive
is awkward to use directly). -/
def jsonIndOn {P : Json → Prop}
    (hnull : P .null) (hbool : ∀ b, P (.bool b)) (hnum : ∀ n, P (.num n))
    (hstr : ∀ s, P (.str s))
    (harr : ∀ items, (∀ j ∈ items, P j) → P (.arr items))
    (hobj : ∀ es, (∀ kv ∈ es, P kv.2) → P (.obj es)) : ∀ j, P j
  | .null => hnull
  | .bool b => hbool b
  | .num n => hnum n
  | .str s => hstr s
  | .arr items =>
      harr items fun j hj =>
        jsonIndOn hnull hbool hnum hstr harr hobj j
  | .obj es =>
      hobj es fun kv hkv =>
        jsonIndOn hnull hbool hnum hstr harr hobj kv.2
termination_by j => sizeOf j
decreasing_by
  · have h1 := List.sizeOf_lt_of_mem hj
    simp only [Json.arr.sizeOf_spec]
    omega
  · have h1 := List.sizeOf_lt_of_mem hkv
    have h2 : sizeOf kv.2 < sizeOf kv := by
      obtain ⟨k, v⟩ := kv
      simp
    simp only [Json.obj.sizeOf_spec]
    omega

/-- Shape tests for the four error categories. -/
def isDefCountErr : ErrMsg → Bool
  | .defCountIncreased _ => true
  | _ => false

def isBrokenErr : ErrMsg → Bool
  | .brokenRef _ => true
  | _ => false

def isOrphanErr : ErrMsg → Bool
  | .orphanedTarget _ => true
  | _ => false

def isMismatchErr : ErrMsg → Bool
  | .collapsedMismatch _ _ => true
  | _ => false

/-! ### Concrete documents used to instantiate the hypotheses of the claim
theorems.  `emptyAfterDoc` is the spec's Scenario D. -/

/-- The document `{"definitions": {}, "x-netex-collapsed": 0}`. -/
def emptyAfterDoc : Json := .obj [("definitions", .obj []), ("x-netex-collapsed", .num 0)]

/-- The full outcome of running the checker on `emptyAfterDoc` alone. -/
def emptyOutcome : RunOutcome :=
  ⟨[.header "after.json", .defCountAfterOnly 0, .collapsedHeader 0, .brokenHeader 0,
    .orphanSkipped, .collapsedCount (.num 0) 0, .sepLine, .passLine], [], 0⟩

theorem collectObj_cons (k : String) (v : Json) (rest : List (String × Json)) :
    collectObj ((k, v) :: rest) = entryRefs k v ∪ collectObj rest := rfl

/-- A value is a matching reference string exactly when it is the recognized
head followed by the captured name; the captured name is exactly the residue
after the head. -/
theorem refTarget_eq_some (v : Json) (t : String) :
    refTarget v = some t ↔ v = .str (refHead ++ t) := by
  constructor
  · intro h
    match v with
    | .null | .bool _ | .num _ | .arr _ | .obj _ => simp [refTarget] at h
    | .str s =>
      simp only [refTarget] at h
      split at h
      · rename_i hpre
        obtain ⟨u, hu⟩ := List.isPrefixOf_iff_prefix.mp hpre
        injection h with h
        subst h
        have hs : refHead ++ String.mk (s.data.drop refHead.data.length) = s := by
          apply String.ext
          rw [String.data_append]
          show refHead.data ++ s.data.drop refHead.data.length = s.data
          rw [← hu, List.drop_left]
        rw [hs]
      · exact absurd h (by simp)
  · rintro rfl
    simp only [refTarget]
    have hpre : refHead.data.isPrefixOf (refHead ++ t).data = true := by
      rw [String.data_append]
      exact List.isPrefixOf_iff_prefix.mpr ⟨t.data, rfl⟩
    rw [if_pos hpre]
    have hd : (refHead ++ t).data.drop refHead.data.length = t.data := by
      rw [String.data_append, List.drop_left]
    rw [hd]

theorem mem_collectArr (items : List Json) (n : String) :
    n ∈ collectArr items ↔ ∃ j ∈ items, n ∈ collect_refs j := by
  induction items with
  | nil => simp [collectArr]
  | cons j rest ih => simp [collectArr, ih]

theorem mem_collectObj (es : List (String × Json)) (n : String) :
    n ∈ collectObj es ↔ ∃ kv ∈ es, n ∈ entryRefs kv.1 kv.2 := by
  induction es with
  | nil => simp [collectObj]
  | cons kv rest ih =>
    obtain ⟨k, v⟩ := kv
    rw [collectObj_cons]
    simp [ih]

/-- Membership in one entry's contribution: either the entry is a matching
reference (key `$ref`, value the head followed by `n`), or the entry was
recursed into as an ordinary child and `n` was found inside its value.  The
second disjunct also covers a `$ref` key with a non-matching value: a
non-matching string contributes nothing (strings contain nothing), and a
non-string container is walked as usual. -/
theorem mem_entryRefs (k : String) (v : Json) (n : String) :
    n ∈ entryRefs k v ↔
      (k = "$ref" ∧ v = .str (refHead ++ n)) ∨
      (¬(k = "$ref" ∧ (∃ t, v = .str (refHead ++ t))) ∧ n ∈ collect_refs v) := by
  unfold entryRefs
  by_cases hk : k = "$ref"
  · subst hk
    simp only [true_and, if_pos rfl]
    match hv : refTarget v with
    | some t =>
      have := (refTarget_eq_some v t).mp hv
      subst this
      constructor
      · intro hn
        simp at hn
        subst hn
        exact Or.inl rfl
      · rintro (h | ⟨hne, hmem⟩)
        · injection h with h
          have : t = n := by
            have := congrArg String.data h
            rw [String.data_append, String.data_append] at this
            have := List.append_cancel_left this
            exact String.ext this.symm ▸ rfl
          simp [this]
        · exact absurd ⟨t, rfl⟩ hne
    | none =>
      constructor
      · intro hn
        refine Or.inr ⟨?_, hn⟩
        rintro ⟨t, rfl⟩
        rw [(refTarget_eq_some _ t).mpr rfl] at hv
        exact Option.noConfusion hv
      · rintro (h | ⟨-, hmem⟩)
        · rw [(refTarget_eq_some v n).mpr h] at hv
          exact Option.noConfusion hv
        · exact hmem
  · simp [hk]

/-- The collector's result, characterized against the document structure:
`n` is collected exactly when some object in the transitive structure of `j`
has an entry whose key is `$ref` and whose value is the string
`"#/definitions/" ++ n`. -/
theorem mem_collect_refs (n : String) :
    ∀ j : Json, n ∈ collect_refs j ↔
      ∃ es, Reach j (.obj es) ∧ ("$ref", Json.str (refHead ++ n)) ∈ es := by
  refine jsonIndOn ?_ ?_ ?_ ?_ ?_ ?_
  · simp only [collect_refs, Finset.not_mem_empty, false_iff]
    exact fun ⟨es, hr, _⟩ => nomatch hr
  · intro b
    simp only [collect_refs, Finset.not_mem_empty, false_iff]
    exact fun ⟨es, hr, _⟩ => nomatch hr
  · intro m
    simp only [collect_refs, Finset.not_mem_empty, false_iff]
    exact fun ⟨es, hr, _⟩ => nomatch hr
  · intro s
    simp only [collect_refs, Finset.not_mem_empty, false_iff]
    exact fun ⟨es, hr, _⟩ => nomatch hr
  · intro items ih
    rw [show collect_refs (.arr items) = collectArr items from rfl, mem_collectArr]
    constructor
    · rintro ⟨j, hj, hn⟩
      obtain ⟨es, hr, hm⟩ := (ih j hj).mp hn
      exact ⟨es, .inArr hj hr, hm⟩
    · rintro ⟨es, hr, hm⟩
      cases hr with
      | inArr hj hr2 => exact ⟨_, hj, (ih _ hj).mpr ⟨es, hr2, hm⟩⟩
  · intro es ih
    rw [show collect_refs (.obj es) = collectObj es from rfl, mem_collectObj]
    constructor
    · rintro ⟨⟨k, v⟩, hkv, hn⟩
      rw [mem_entryRefs] at hn
      rcases hn with ⟨hk, hv⟩ | ⟨-, hn⟩
      · subst hk
        subst hv
        exact ⟨es, .refl _, hkv⟩
      · obtain ⟨es2, hr, hm⟩ := (ih ⟨k, v⟩ hkv).mp hn
        exact ⟨es2, .inObj hkv hr, hm⟩
    · rintro ⟨es2, hr, hm⟩
      cases hr with
      | refl =>
        refine ⟨("$ref", Json.str (refHead ++ n)), hm, ?_⟩
        rw [mem_entryRefs]
        exact Or.inl ⟨rfl, rfl⟩
      | inObj hkv hr2 =>
        rename_i k v
        have hn2 : n ∈ collect_refs v := (ih (k, v) hkv).mpr ⟨es2, hr2, hm⟩
        refine ⟨(k, v), hkv, ?_⟩
        rw [mem_entryRefs]
        by_cases hc : k = "$ref" ∧ ∃ t, v = Json.str (refHead ++ t)
        · obtain ⟨-, t, rfl⟩ := hc
          exact absurd hr2 (fun h => nomatch h)
        · exact Or.inr ⟨hc, hn2⟩

theorem mem_foldl_union (defs : List (String × Json)) (n : String) :
    ∀ acc : Finset String,
      n ∈ defs.foldl (fun acc kv => acc ∪ collect_refs kv.2) acc ↔
        n ∈ acc ∨ ∃ kv ∈ defs, n ∈ collect_refs kv.2 := by
  induction defs with
  | nil => simp
  | cons kv rest ih =>
    intro acc
    simp only [List.foldl_cons, ih, Finset.mem_union, List.mem_cons]
    constructor
    · rintro ((h | h) | ⟨kv2, h2, h3⟩)
      · exact Or.inl h
      · exact Or.inr ⟨kv, Or.inl rfl, h⟩
      · exact Or.inr ⟨kv2, Or.inr h2, h3⟩
    · rintro (h | ⟨kv2, (rfl | h2), h3⟩)
      · exact Or.inl (Or.inl h)
      · exact Or.inl (Or.inr h3)
      · exact Or.inr ⟨kv2, h2, h3⟩

/-- Membership in the union accumulated over all definition entries. -/
theorem mem_all_refs (defs : List (String × Json)) (n : String) :
    n ∈ all_refs defs ↔ ∃ kv ∈ defs, n ∈ collect_refs kv.2 := by
  rw [all_refs, mem_foldl_union]
  simp

/-- Fact: `len(reduced_defs)` counts the definition entries that are objects
carrying the `x-netex-reduced` key. -/
theorem length_reduced_defs (defs : List (String × Json)) :
    (reduced_defs defs).length =
      defs.countP fun kv =>
        match kv.2 with
        | .obj e => (lookupKey "x-netex-reduced" e).isSome
        | _ => false := by
  induction defs with
  | nil => simp [reduced_defs]
  | cons kv rest ih =>
    obtain ⟨k, v⟩ := kv
    simp only [reduced_defs, List.filterMap_cons] at *
    match v with
    | .null | .bool _ | .num _ | .str _ | .arr _ =>
      simpa [List.countP_cons] using ih
    | .obj e =>
      match he : lookupKey "x-netex-reduced" e with
      | some t => simp [he, List.countP_cons, ih]
      | none => simp [he, List.countP_cons, ih]

theorem filter_map_eq_nil {α : Type} (p : ErrMsg → Bool) (f : α → ErrMsg)
    (hpf : ∀ x, p (f x) = false) (l : List α) : (l.map f).filter p = [] := by
  induction l with
  | nil => rfl
  | cons x xs ih => simp [hpf, ih]

theorem filter_map_eq_self {α : Type} (p : ErrMsg → Bool) (f : α → ErrMsg)
    (hpf : ∀ x, p (f x) = true) (l : List α) : (l.map f).filter p = l.map f := by
  induction l with
  | nil => rfl
  | cons x xs ih => simp [hpf, ih]

/-- Explicit outcome of a run without a before document on a well-shaped
after document. -/
theorem runMain_none_eq (p : String) (top ad : List (String × Json))
    (hd : defsOfDoc (.obj top) = some ad) :
    runMain p (.obj top) none =
      some ⟨OutLine.header p :: OutLine.defCountAfterOnly ad.length :: (check2Lines ad ++
          (check3 ad).1 ++ [OutLine.orphanSkipped] ++
          (check5 (collapsedAnnot top) (reduced_defs ad).length).1 ++
          (if ((check3 ad).2 ++
                (check5 (collapsedAnnot top) (reduced_defs ad).length).2).isEmpty then
            [OutLine.sepLine, OutLine.passLine]
          else
            OutLine.sepLine ::
              OutLine.failLine ((check3 ad).2 ++
                (check5 (collapsedAnnot top) (reduced_defs ad).length).2).length ::
              ((check3 ad).2 ++
                (check5 (collapsedAnnot top)
                  (reduced_defs ad).length).2).map OutLine.errLine)),
        (check3 ad).2 ++ (check5 (collapsedAnnot top) (reduced_defs ad).length).2,
        if ((check3 ad).2 ++
            (check5 (collapsedAnnot top) (reduced_defs ad).length).2).isEmpty then 0
        else 1⟩ := by
  simp [runMain, hd]

/-- Explicit outcome of a run with a before document, both documents
well-shaped. -/
theorem runMain_some_eq (p : String) (top ad : List (String × Json)) (bdoc : Json)
    (bd : List (String × Json)) (hd : defsOfDoc (.obj top) = some ad)
    (hb : defsOfDoc bdoc = some bd) :
    runMain p (.obj top) (some bdoc) =
      some ⟨OutLine.header p :: ((check1 bd ad).1 ++ check2Lines ad ++
          (check3 ad).1 ++ (check4 bd ad).1 ++
          (check5 (collapsedAnnot top) (reduced_defs ad).length).1 ++
          (if ((check1 bd ad).2 ++ (check3 ad).2 ++ (check4 bd ad).2 ++
                (check5 (collapsedAnnot top) (reduced_defs ad).length).2).isEmpty then
            [OutLine.sepLine, OutLine.passLine]
          else
            OutLine.sepLine ::
              OutLine.failLine ((check1 bd ad).2 ++ (check3 ad).2 ++ (check4 bd ad).2 ++
                (check5 (collapsedAnnot top) (reduced_defs ad).length).2).length ::
              ((check1 bd ad).2 ++ (check3 ad).2 ++ (check4 bd ad).2 ++
                (check5 (collapsedAnnot top)
                  (reduced_defs ad).length).2).map OutLine.errLine)),
        (check1 bd ad).2 ++ (check3 ad).2 ++ (check4 bd ad).2 ++
          (check5 (collapsedAnnot top) (reduced_defs ad).length).2,
        if ((check1 bd ad).2 ++ (check3 ad).2 ++ (check4 bd ad).2 ++
            (check5 (collapsedAnnot top) (reduced_defs ad).length).2).isEmpty then 0
        else 1⟩ := by
  simp [runMain, hd, hb]

theorem runMain_emptyAfterDoc :
    runMain "after.json" emptyAfterDoc none = some emptyOutcome := by
  simp [emptyAfterDoc, emptyOutcome, runMain, defsOfDoc, dictGetD, lookupKey, check2Lines,
    reduced_defs, check3, broken, all_refs, defKeys, collapsedAnnot, check5, pyEqInt]

/-- C1: for every pair of successfully loaded (and well-shaped, per the
spec's data model) input documents, the run exits 0 iff the accumulated
error list is empty; with a non-empty list it prints the FAIL summary line
and exits 1, and with an empty list it prints the PASS line. -/
theorem run_exit_iff_errors (p : String) (a : Json) (b : Option Json) (out : RunOutcome)
    (h : runMain p a b = some out) :
    (out.exitCode = 0 ↔ out.errors = []) ∧
    (out.errors ≠ [] → out.exitCode = 1 ∧ OutLine.failLine out.errors.length ∈ out.lines) ∧
    (out.errors = [] → OutLine.passLine ∈ out.lines) := by
  match a with
  | .null | .bool _ | .num _ | .str _ | .arr _ => simp [runMain] at h
  | .obj top =>
    match hd : defsOfDoc (.obj top) with
    | none => simp [runMain, hd] at h
    | some ad =>
      match b with
      | none =>
        rw [runMain_none_eq p top ad hd] at h
        injection h with h
        subst h
        by_cases hE : ((check3 ad).2 ++
            (check5 (collapsedAnnot top) (reduced_defs ad).length).2) = []
        · simp only [RunOutcome.errors, RunOutcome.exitCode, RunOutcome.lines]
          rw [hE]
          simp
        · simp only [RunOutcome.errors, RunOutcome.exitCode, RunOutcome.lines]
          rw [if_neg (by simpa using hE), if_neg (by simpa using hE)]
          refine ⟨by simpa using hE, fun h2 => ⟨rfl, ?_⟩, fun h2 => absurd h2 hE⟩
          simp
      | some bdoc =>
        match hb : defsOfDoc bdoc with
        | none => simp [runMain, hd, hb] at h
        | some bd =>
          rw [runMain_some_eq p top ad bdoc bd hd hb] at h
          injection h with h
          subst h
          by_cases hE : ((check1 bd ad).2 ++ (check3 ad).2 ++ (check4 bd ad).2 ++
              (check5 (collapsedAnnot top) (reduced_defs ad).length).2) = []
          · simp only [RunOutcome.errors, RunOutcome.exitCode, RunOutcome.lines]
            rw [hE]
            simp
          · simp only [RunOutcome.errors, RunOutcome.exitCode, RunOutcome.lines]
            rw [if_neg (by simpa using hE), if_neg (by simpa using hE)]
            refine ⟨by simpa using hE, fun h2 => ⟨rfl, ?_⟩, fun h2 => absurd h2 hE⟩
            simp

/-- Witness for C1 at Scenario D. -/
theorem run_exit_iff_errors_witness :
    emptyOutcome.exitCode = 0 ↔ emptyOutcome.errors = [] :=
  (run_exit_iff_errors "after.json" emptyAfterDoc none emptyOutcome runMain_emptyAfterDoc).1

theorem filter_check1 (bd ad : List (String × Json)) (p : ErrMsg → Bool)
    (hp : ∀ k, p (.defCountIncreased k) = p (.defCountIncreased 0)) :
    ((check1 bd ad).2).filter p =
      (if p (.defCountIncreased 0) then (check1 bd ad).2 else []) := by
  have h2 : (check1 bd ad).2 =
      if ((bd.length : Int) - ad.length) < 0 then
        [ErrMsg.defCountIncreased (-((bd.length : Int) - ad.length))]
      else [] := rfl
  rw [h2]
  by_cases hr : ((bd.length : Int) - ad.length) < 0
  · rw [if_pos hr]
    simp only [List.filter_cons, List.filter_nil, hp]
  · rw [if_neg hr]
    simp

theorem filter_check3 (ad : List (String × Json)) (p : ErrMsg → Bool)
    (hp : ∀ n, p (.brokenRef n) = false) :
    ((check3 ad).2).filter p = [] := by
  simp only [check3]
  exact filter_map_eq_nil p _ hp _

theorem filter_check3_self (ad : List (String × Json)) :
    ((check3 ad).2).filter isBrokenErr = (check3 ad).2 := by
  simp only [check3]
  exact filter_map_eq_self _ _ (fun _ => rfl) _

theorem filter_check4 (bd ad : List (String × Json)) (p : ErrMsg → Bool)
    (hp : ∀ n, p (.orphanedTarget n) = false) :
    ((check4 bd ad).2).filter p = [] := by
  simp only [check4]
  exact filter_map_eq_nil p _ hp _

theorem filter_check4_self (bd ad : List (String × Json)) :
    ((check4 bd ad).2).filter isOrphanErr = (check4 bd ad).2 := by
  simp only [check4]
  exact filter_map_eq_self _ _ (fun _ => rfl) _

theorem filter_check5 (ann : Json) (actual : Nat) (p : ErrMsg → Bool)
    (hp : ∀ a m, p (.collapsedMismatch a m) = false) :
    ((check5 ann actual).2).filter p = [] := by
  simp only [check5]
  split <;> simp [hp]

theorem filter_check5_self (ann : Json) (actual : Nat) :
    ((check5 ann actual).2).filter isMismatchErr = (check5 ann actual).2 := by
  simp only [check5]
  split <;> simp [isMismatchErr]

/-- The error list of a successful run without a before document. -/
theorem errors_of_run_none (p : String) (top ad : List (String × Json))
    (out : RunOutcome) (hd : defsOfDoc (.obj top) = some ad)
    (h : runMain p (.obj top) none = some out) :
    out.errors =
      (check3 ad).2 ++ (check5 (collapsedAnnot top) (reduced_defs ad).length).2 := by
  rw [runMain_none_eq p top ad hd] at h
  injection h with h
  subst h
  rfl

/-- The error list of a successful run with a before document. -/
theorem errors_of_run_some (p : String) (top ad bd : List (String × Json)) (bdoc : Json)
    (out : RunOutcome) (hd : defsOfDoc (.obj top) = some ad)
    (hb : defsOfDoc bdoc = some bd)
    (h : runMain p (.obj top) (some bdoc) = some out) :
    out.errors =
      (check1 bd ad).2 ++ (check3 ad).2 ++ (check4 bd ad).2 ++
        (check5 (collapsedAnnot top) (reduced_defs ad).length).2 := by
  rw [runMain_some_eq p top ad bdoc bd hd hb] at h
  injection h with h
  subst h
  rfl

/-- A successful run on an object document means both documents were
well-shaped. -/
theorem shapes_of_run (p : String) (a : Json) (b : Option Json) (out : RunOutcome)
    (h : runMain p a b = some out) :
    (∃ top, a = .obj top) ∧ (defsOfDoc a).isSome ∧
      (∀ bdoc, b = some bdoc → (defsOfDoc bdoc).isSome) := by
  match a with
  | .null | .bool _ | .num _ | .str _ | .arr _ => simp [runMain] at h
  | .obj top =>
    match hd : defsOfDoc (.obj top) with
    | none => simp [runMain, hd] at h
    | some ad =>
      refine ⟨⟨top, rfl⟩, by simp [hd], ?_⟩
      rintro bdoc rfl
      match hb : defsOfDoc bdoc with
      | none => simp [runMain, hd, hb] at h
      | some bd => simp [hb]

/-- C2: Check 3's broken-reference set is the union of collected reference
targets over all after-definition entries minus the set of definition keys;
exactly one error is recorded per broken name; and definition entries with
no `$ref` key anywhere yield no broken reference and no error. -/
theorem check3_broken_spec (defs : List (String × Json)) :
    broken defs = (defs.toFinset.biUnion fun kv => collect_refs kv.2) \ defKeys defs ∧
    (∀ n, ((check3 defs).2).count (ErrMsg.brokenRef n) = if n ∈ broken defs then 1 else 0) ∧
    ((∀ kv ∈ defs, ∀ es, Reach kv.2 (.obj es) → ∀ v, ("$ref", v) ∉ es) →
      broken defs = ∅ ∧ (check3 defs).2 = []) := by
  refine ⟨?_, ?_, ?_⟩
  · ext n
    simp only [broken, Finset.mem_sdiff, mem_all_refs, Finset.mem_biUnion,
      List.mem_toFinset]
  · intro n
    have hinj : Function.Injective ErrMsg.brokenRef := fun a b h => by injection h
    show (((broken defs).sort (· ≤ ·)).map ErrMsg.brokenRef).count (ErrMsg.brokenRef n) = _
    rw [List.count_map_of_injective _ _ hinj]
    by_cases hn : n ∈ broken defs
    · rw [if_pos hn]
      exact List.count_eq_one_of_mem (Finset.sort_nodup _ _) ((Finset.mem_sort _).mpr hn)
    · rw [if_neg hn]
      exact List.count_eq_zero_of_not_mem (fun hc => hn ((Finset.mem_sort _).mp hc))
  · intro hno
    have hall : all_refs defs = ∅ := by
      ext m
      simp only [mem_all_refs, Finset.not_mem_empty, iff_false, not_exists]
      rintro kv ⟨hkv, hm⟩
      obtain ⟨es, hr, hmem⟩ := (mem_collect_refs m kv.2).mp hm
      exact hno kv hkv es hr _ hmem
    have hbr : broken defs = ∅ := by
      rw [broken, hall]
      exact Finset.empty_sdiff _
    refine ⟨hbr, ?_⟩
    show ((broken defs).sort (· ≤ ·)).map ErrMsg.brokenRef = []
    rw [hbr]
    simp

/-- Witness for C2 on the empty definitions mapping. -/
theorem check3_broken_spec_witness : broken [] = ∅ ∧ (check3 []).2 = [] :=
  (check3_broken_spec []).2.2 (by simp)

/-- C3: Check 5 records a single error exactly when the top-level collapse
annotation (defaulting to 0 when absent) differs from the number of
definition entries that are objects carrying the `x-netex-reduced` key (the
Check 2 count); in a full run, the mismatch errors are exactly Check 5's. -/
theorem check5_mismatch_spec (top defs : List (String × Json)) :
    ((check5 (collapsedAnnot top) ((reduced_defs defs).length)).2 = [] ↔
      pyEqInt (collapsedAnnot top) ((reduced_defs defs).length) = true) ∧
    (pyEqInt (collapsedAnnot top) ((reduced_defs defs).length) = false →
      (check5 (collapsedAnnot top) ((reduced_defs defs).length)).2 =
        [.collapsedMismatch (collapsedAnnot top) ((reduced_defs defs).length)]) ∧
    ((reduced_defs defs).length = defs.countP fun kv =>
      match kv.2 with
      | .obj e => (lookupKey "x-netex-reduced" e).isSome
      | _ => false) ∧
    (lookupKey "x-netex-collapsed" top = none → collapsedAnnot top = .num 0) ∧
    (∀ p b out, runMain p (.obj top) b = some out → defsOfDoc (.obj top) = some defs →
      out.errors.filter isMismatchErr =
        (check5 (collapsedAnnot top) ((reduced_defs defs).length)).2) := by
  refine ⟨?_, ?_, length_reduced_defs defs, ?_, ?_⟩
  · by_cases hq : pyEqInt (collapsedAnnot top) ((reduced_defs defs).length) = true
    · simp [check5, hq]
    · simp only [Bool.not_eq_true] at hq
      simp [check5, hq]
  · intro hq
    simp [check5, hq]
  · intro habs
    simp [collapsedAnnot, dictGetD, habs]
  · intro p b out h hd
    match b with
    | none =>
      rw [errors_of_run_none p top defs out hd h]
      rw [List.filter_append, filter_check3 _ _ (fun n => rfl), filter_check5_self]
      simp
    | some bdoc =>
      obtain ⟨-, -, hshape⟩ := shapes_of_run p (.obj top) (some bdoc) out h
      obtain ⟨bd, hb⟩ := Option.isSome_iff_exists.mp (hshape bdoc rfl)
      rw [errors_of_run_some p top defs bd bdoc out hd hb h]
      rw [List.filter_append, List.filter_append, List.filter_append]
      rw [filter_check1 _ _ isMismatchErr (fun k => rfl), filter_check3 _ _ (fun n => rfl),
        filter_check4 _ _ _ (fun n => rfl), filter_check5_self]
      simp [isMismatchErr]

/-- Witness for C3 at Scenario D. -/
theorem check5_mismatch_spec_witness :
    emptyOutcome.errors.filter isMismatchErr =
      (check5
        (collapsedAnnot [("definitions", Json.obj []), ("x-netex-collapsed", Json.num 0)])
        ((reduced_defs []).length)).2 :=
  (check5_mismatch_spec
      [("definitions", Json.obj []), ("x-netex-collapsed", Json.num 0)] []).2.2.2.2
    "after.json" none emptyOutcome runMain_emptyAfterDoc rfl

/-- C4: with a before document, Check 4's orphan set is (before keys minus
after keys) intersected with the collected reference targets, with exactly
one error per orphaned name; without one, the check is reported skipped and
contributes no error. -/
theorem check4_orphan_spec (bd ad : List (String × Json)) :
    (∀ n, n ∈ orphaned bd ad ↔ (n ∈ defKeys bd ∧ n ∉ defKeys ad) ∧ n ∈ all_refs ad) ∧
    (∀ n, ((check4 bd ad).2).count (ErrMsg.orphanedTarget n) =
      if n ∈ orphaned bd ad then 1 else 0) ∧
    (∀ p top defs out, defsOfDoc (.obj top) = some defs →
      runMain p (.obj top) none = some out →
      OutLine.orphanSkipped ∈ out.lines ∧ out.errors.filter isOrphanErr = []) ∧
    (∀ p top defs bdoc bdefs out, defsOfDoc (.obj top) = some defs →
      defsOfDoc bdoc = some bdefs → runMain p (.obj top) (some bdoc) = some out →
      out.errors.filter isOrphanErr = (check4 bdefs defs).2) := by
  refine ⟨?_, ?_, ?_, ?_⟩
  · intro n
    simp [orphaned, Finset.mem_inter, Finset.mem_sdiff, and_assoc]
  · intro n
    have hinj : Function.Injective ErrMsg.orphanedTarget := fun a b h => by injection h
    show (((orphaned bd ad).sort (· ≤ ·)).map ErrMsg.orphanedTarget).count
      (ErrMsg.orphanedTarget n) = _
    rw [List.count_map_of_injective _ _ hinj]
    by_cases hn : n ∈ orphaned bd ad
    · rw [if_pos hn]
      exact List.count_eq_one_of_mem (Finset.sort_nodup _ _) ((Finset.mem_sort _).mpr hn)
    · rw [if_neg hn]
      exact List.count_eq_zero_of_not_mem (fun hc => hn ((Finset.mem_sort _).mp hc))
  · intro p top defs out hd h
    constructor
    · rw [runMain_none_eq p top defs hd] at h
      injection h with h
      subst h
      simp
    · rw [errors_of_run_none p top defs out hd h]
      rw [List.filter_append, filter_check3 _ _ (fun n => rfl),
        filter_check5 _ _ _ (fun a m => rfl)]
      rfl
  · intro p top defs bdoc bdefs out hd hb h
    rw [errors_of_run_some p top defs bdefs bdoc out hd hb h]
    rw [List.filter_append, List.filter_append, List.filter_append]
    rw [filter_check1 _ _ isOrphanErr (fun k => rfl), filter_check3 _ _ (fun n => rfl),
      filter_check4_self, filter_check5 _ _ _ (fun a m => rfl)]
    simp [isOrphanErr]

/-- Witness for C4 at Scenario D (skipped branch). -/
theorem check4_orphan_spec_witness :
    OutLine.orphanSkipped ∈ emptyOutcome.lines ∧
      emptyOutcome.errors.filter isOrphanErr = [] :=
  (check4_orphan_spec [] []).2.2.1 "after.json"
    [("definitions", Json.obj []), ("x-netex-collapsed", Json.num 0)] [] emptyOutcome rfl
    runMain_emptyAfterDoc

/-- C5: with a before document, Check 1 reports
`removed = before_count - after_count` and records exactly one error (with
the magnitude of the increase) iff `removed < 0`; with `removed ≥ 0` or no
before document it records no error. -/
theorem check1_delta_spec (bd ad : List (String × Json)) :
    ((check1 bd ad).1 =
      [.defCountBoth bd.length ad.length ((bd.length : Int) - ad.length)]) ∧
    ((bd.length : Int) - ad.length < 0 →
      (check1 bd ad).2 = [.defCountIncreased (-((bd.length : Int) - ad.length))]) ∧
    (0 ≤ (bd.length : Int) - ad.length → (check1 bd ad).2 = []) ∧
    (∀ p top defs out, defsOfDoc (.obj top) = some defs →
      runMain p (.obj top) none = some out → out.errors.filter isDefCountErr = []) ∧
    (∀ p top defs bdoc bdefs out, defsOfDoc (.obj top) = some defs →
      defsOfDoc bdoc = some bdefs → runMain p (.obj top) (some bdoc) = some out →
      out.errors.filter isDefCountErr = (check1 bdefs defs).2) := by
  refine ⟨rfl, ?_, ?_, ?_, ?_⟩
  · intro hr
    show (if ((bd.length : Int) - ad.length) < 0 then
      [ErrMsg.defCountIncreased (-((bd.length : Int) - ad.length))] else []) = _
    rw [if_pos hr]
  · intro hr
    show (if ((bd.length : Int) - ad.length) < 0 then
      [ErrMsg.defCountIncreased (-((bd.length : Int) - ad.length))] else []) = _
    rw [if_neg (not_lt.mpr hr)]
  · intro p top defs out hd h
    rw [errors_of_run_none p top defs out hd h]
    rw [List.filter_append, filter_check3 _ _ (fun n => rfl),
      filter_check5 _ _ _ (fun a m => rfl)]
    rfl
  · intro p top defs bdoc bdefs out hd hb h
    rw [errors_of_run_some p top defs bdefs bdoc out hd hb h]
    rw [List.filter_append, List.filter_append, List.filter_append]
    rw [filter_check1 _ _ isDefCountErr (fun k => rfl), filter_check3 _ _ (fun n => rfl),
      filter_check4 _ _ _ (fun n => rfl), filter_check5 _ _ _ (fun a m => rfl)]
    simp [isDefCountErr]

/-- Witness for C5 at Scenario D (no before document). -/
theorem check1_delta_spec_witness : emptyOutcome.errors.filter isDefCountErr = [] :=
  (check1_delta_spec [] []).2.2.2.1 "after.json"
    [("definitions", Json.obj []), ("x-netex-collapsed", Json.num 0)] [] emptyOutcome rfl
    runMain_emptyAfterDoc

/-- C6: the Reference Collector returns exactly the set of names `n` such
that some object in the transitive structure of the value has an entry with
key `$ref` and string value `"#/definitions/" ++ n`; the captured name is
exactly the residue after the recognized head. -/
theorem collector_spec (j : Json) (n : String) :
    (n ∈ collect_refs j ↔
      ∃ es, Reach j (.obj es) ∧ ("$ref", Json.str (refHead ++ n)) ∈ es) ∧
    (∀ v, refTarget v = some n ↔ v = .str (refHead ++ n)) :=
  ⟨mem_collect_refs n j, fun v => refTarget_eq_some v n⟩

/-- C7 counterexample: an entry whose key is `$ref` but whose value is not a
string IS recursed into — a reference target strictly inside such a value is
collected, contradicting the claim that it never is. -/
theorem c7_counterexample :
    collect_refs (.obj [("$ref", .obj [("$ref", .str "#/definitions/X")])]) = {"X"} := by
  decide

/-- C7 amended: a `$ref` entry whose value is a string that does not start
with the recognized head contributes nothing (a string has no interior);
a `$ref` entry whose value is not a string is not treated as a reference,
but its value IS walked as an ordinary child, so targets inside it are
collected. -/
theorem collector_nonmatching_ref_entries (s : String) (v : Json)
    (rest : List (String × Json)) :
    (refHead.data.isPrefixOf s.data = false →
      collectObj (("$ref", .str s) :: rest) = collectObj rest) ∧
    ((∀ u : String, v ≠ .str u) →
      collectObj (("$ref", v) :: rest) = collect_refs v ∪ collectObj rest) := by
  constructor
  · intro hpre
    rw [collectObj_cons]
    have he : entryRefs "$ref" (.str s) = ∅ := by
      unfold entryRefs
      rw [if_pos rfl]
      simp only [refTarget, hpre, Bool.false_eq_true, if_false]
      rfl
    rw [he, Finset.empty_union]
  · intro hv
    rw [collectObj_cons]
    have he : entryRefs "$ref" v = collect_refs v := by
      unfold entryRefs
      rw [if_pos rfl]
      have ht : refTarget v = none := by
        match v with
        | .str u => exact absurd rfl (hv u)
        | .null | .bool _ | .num _ | .arr _ | .obj _ => rfl
      rw [ht]
    rw [he]

/-- Witness for the amended C7. -/
theorem collector_nonmatching_ref_entries_witness :
    collectObj [("$ref", Json.str "nope")] = collectObj [] ∧
    collectObj [("$ref", Json.num 3)] = collect_refs (Json.num 3) ∪ collectObj [] :=
  ⟨(collector_nonmatching_ref_entries "nope" (Json.num 3) []).1 (by decide),
   (collector_nonmatching_ref_entries "nope" (Json.num 3) []).2
     (fun u h => Json.noConfusion h)⟩

/-- C8 counterexample: when the after document is unreadable or invalid, the
script terminates non-zero with nothing on standard output — in particular
WITHOUT the usage message that the claim asserts is printed. -/
theorem c8_counterexample :
    (progMain ["after.json"] (fun _ => none)).stdoutLines = some [] ∧
    (progMain ["after.json"] (fun _ => none)).exitCode = 1 ∧
    OutLine.usage ∉ ([] : List OutLine) :=
  ⟨rfl, rfl, by simp⟩

/-- C8 amended: a missing required argument prints the usage message and
exits 1; an unreadable or unparsable after document terminates non-zero
before any check runs, with no report body and no usage message. -/
theorem usage_and_load_failure (fs : String → Option Json) (afterPath : String)
    (rest : List String) (hf : fs afterPath = none) :
    (progMain [] fs = .usage ∧ ProgResult.stdoutLines .usage = some [.usage] ∧
      ProgResult.exitCode .usage = 1) ∧
    (progMain (afterPath :: rest) fs = .loadCrash ∧
      ProgResult.stdoutLines .loadCrash = some [] ∧
      ProgResult.exitCode .loadCrash = 1) := by
  refine ⟨⟨rfl, rfl, rfl⟩, ?_, rfl, rfl⟩
  simp [progMain, hf]

/-- Witness for the amended C8. -/
theorem usage_and_load_failure_witness :
    progMain ["x.json"] (fun _ => none) = ProgResult.loadCrash ∧
    ProgResult.stdoutLines .loadCrash = some [] :=
  ⟨((usage_and_load_failure (fun _ => none) "x.json" [] rfl).2).1,
   ((usage_and_load_failure (fun _ => none) "x.json" [] rfl).2).2.1⟩

/-- C9: the whole observable behaviour is a pure function of the argument
list and the (unmodified) input documents: two invocations on equal inputs
produce identical results, output lines and exit status included. -/
theorem deterministic_runs (args1 args2 : List String)
    (fs1 fs2 : String → Option Json)
    (hargs : args1 = args2) (hfs : ∀ q, fs1 q = fs2 q) :
    progMain args1 fs1 = progMain args2 fs2 ∧
    (progMain args1 fs1).stdoutLines = (progMain args2 fs2).stdoutLines ∧
    (progMain args1 fs1).exitCode = (progMain args2 fs2).exitCode := by
  subst hargs
  rw [funext hfs]
  exact ⟨rfl, rfl, rfl⟩

/-- Witness for C9. -/
theorem deterministic_runs_witness :
    progMain ["after.json"] (fun _ => some emptyAfterDoc) =
      progMain ["after.json"] (fun _ => some emptyAfterDoc) :=
  (deterministic_runs ["after.json"] ["after.json"] (fun _ => some emptyAfterDoc)
    (fun _ => some emptyAfterDoc) rfl (fun q => rfl)).1

theorem runMain_badshape (p : String) (t : List (String × Json)) (b : Option Json)
    (hd : defsOfDoc (.obj t) = none) : runMain p (.obj t) b = none := by
  simp [runMain, hd]

theorem runMain_badbefore (p : String) (t ad : List (String × Json)) (bdoc : Json)
    (hd : defsOfDoc (.obj t) = some ad) (hb : defsOfDoc bdoc = none) :
    runMain p (.obj t) (some bdoc) = none := by
  simp [runMain, hd, hb]

/-- In any successful run, the broken-reference errors are exactly Check 3's. -/
theorem filter_broken_of_run (p : String) (top ad : List (String × Json))
    (b : Option Json) (out : RunOutcome) (hd : defsOfDoc (.obj top) = some ad)
    (h : runMain p (.obj top) b = some out) :
    out.errors.filter isBrokenErr = (check3 ad).2 := by
  match b with
  | none =>
    rw [errors_of_run_none p top ad out hd h, List.filter_append,
      filter_check3_self, filter_check5 _ _ _ (fun a m => rfl)]
    simp
  | some bdoc =>
    obtain ⟨-, -, hshape⟩ := shapes_of_run p (.obj top) (some bdoc) out h
    obtain ⟨bd, hb⟩ := Option.isSome_iff_exists.mp (hshape bdoc rfl)
    rw [errors_of_run_some p top ad bd bdoc out hd hb h]
    rw [List.filter_append, List.filter_append, List.filter_append]
    rw [filter_check1 _ _ isBrokenErr (fun k => rfl), filter_check3_self,
      filter_check4 _ _ _ (fun n => rfl), filter_check5 _ _ _ (fun a m => rfl)]
    simp [isBrokenErr]

/-- In any successful run, an orphaned-target error can only name a
collected reference target. -/
theorem orphan_err_sub_all_refs (p : String) (top ad : List (String × Json))
    (b : Option Json) (out : RunOutcome) (hd : defsOfDoc (.obj top) = some ad)
    (h : runMain p (.obj top) b = some out) (n : String)
    (hm : ErrMsg.orphanedTarget n ∈ out.errors) : n ∈ all_refs ad := by
  match b with
  | none =>
    rw [errors_of_run_none p top ad out hd h] at hm
    exfalso
    simp only [check3, check5, List.mem_append, List.mem_map] at hm
    rcases hm with ⟨m, -, hm2⟩ | hm
    · exact ErrMsg.noConfusion hm2
    · split at hm <;> simp_all
  | some bdoc =>
    obtain ⟨-, -, hshape⟩ := shapes_of_run p (.obj top) (some bdoc) out h
    obtain ⟨bd, hb⟩ := Option.isSome_iff_exists.mp (hshape bdoc rfl)
    rw [errors_of_run_some p top ad bd bdoc out hd hb h] at hm
    simp only [check1, check3, check4, check5, List.mem_append, List.mem_map] at hm
    rcases hm with ((hm | ⟨m, -, hm2⟩) | ⟨m, hm1, hm2⟩) | hm
    · split at hm <;> simp_all
    · exact ErrMsg.noConfusion hm2
    · injection hm2 with hm2
      subst hm2
      have ho : m ∈ orphaned bd ad := (Finset.mem_sort _).mp hm1
      rw [orphaned] at ho
      exact Finset.mem_inter.mp ho |>.2
    · split at hm <;> simp_all

/-- C10: the run's outcome depends on the top level of the after document
only through its `definitions` and `x-netex-collapsed` entries — a `$ref`
under any other top-level key never changes the result — and every broken
or orphaned name reported comes from the reference-target set collected
inside the definition entries. -/
theorem refs_outside_definitions_ignored (p : String)
    (top top2 : List (String × Json)) (b : Option Json)
    (hdefs : lookupKey "definitions" top = lookupKey "definitions" top2)
    (hann : lookupKey "x-netex-collapsed" top = lookupKey "x-netex-collapsed" top2) :
    runMain p (.obj top) b = runMain p (.obj top2) b ∧
    (∀ ad out n, defsOfDoc (.obj top) = some ad → runMain p (.obj top) b = some out →
      ErrMsg.brokenRef n ∈ out.errors ∨ ErrMsg.orphanedTarget n ∈ out.errors →
      n ∈ all_refs ad) := by
  have h1 : defsOfDoc (.obj top) = defsOfDoc (.obj top2) := by
    simp [defsOfDoc, dictGetD, hdefs]
  have h2 : collapsedAnnot top = collapsedAnnot top2 := by
    simp [collapsedAnnot, dictGetD, hann]
  constructor
  · match hd : defsOfDoc (.obj top) with
    | none =>
      have hd2 : defsOfDoc (.obj top2) = none := by rw [← h1]; exact hd
      rw [runMain_badshape p top b hd, runMain_badshape p top2 b hd2]
    | some ad =>
      have hd2 : defsOfDoc (.obj top2) = some ad := by rw [← h1]; exact hd
      match b with
      | none => rw [runMain_none_eq p top ad hd, runMain_none_eq p top2 ad hd2, h2]
      | some bdoc =>
        match hb : defsOfDoc bdoc with
        | none =>
          rw [runMain_badbefore p top ad bdoc hd hb,
            runMain_badbefore p top2 ad bdoc hd2 hb]
        | some bd =>
          rw [runMain_some_eq p top ad bdoc bd hd hb,
            runMain_some_eq p top2 ad bdoc bd hd2 hb, h2]
  · intro ad out n hd h hm
    rcases hm with hm | hm
    · have hf := filter_broken_of_run p top ad b out hd h
      have hmem : ErrMsg.brokenRef n ∈ out.errors.filter isBrokenErr :=
        List.mem_filter.mpr ⟨hm, rfl⟩
      rw [hf] at hmem
      simp only [check3, List.mem_map] at hmem
      obtain ⟨m, hm1, hm2⟩ := hmem
      injection hm2 with hm2
      subst hm2
      have hbb : m ∈ broken ad := (Finset.mem_sort _).mp hm1
      rw [broken] at hbb
      exact Finset.mem_sdiff.mp hbb |>.1
    · exact orphan_err_sub_all_refs p top ad b out hd h n hm

/-- Witness for C10: a dangling `$ref` under a non-definitions top-level key
does not change the outcome (deleting it gives the same run). -/
theorem refs_outside_definitions_ignored_witness :
    runMain "after.json"
        (.obj [("definitions", .obj []),
          ("junk", .obj [("$ref", .str "#/definitions/Ghost")])]) none =
      runMain "after.json" (.obj [("definitions", .obj [])]) none :=
  (refs_outside_definitions_ignored "after.json"
    [("definitions", .obj []), ("junk", .obj [("$ref", .str "#/definitions/Ghost")])]
    [("definitions", .obj [])] none rfl rfl).1

end Collapse
